import Mathlib

/-!
# Verification of the AgentCoordinator task-tracking component

Shallow embedding of `src/orchestrator/coordinator.py`
(classes `TaskStatus`, `AgentTask`, `AgentCoordinator`).

Modelling conventions:

* Python dicts (the task table, keyed by `task_id`) become association
  lists with replace-in-place / append-at-end insertion, which matches
  the insertion-ordered semantics of Python dicts.
* The agent registry `self.agents` maps names to opaque executor objects.
  Only the key set is observable in the coordinator logic; the value
  produced (or exception raised) by `agent.execute(description)` is an
  effect of an opaque, possibly stateful external object, so each call of
  `execute_task` takes that call's behaviour as an explicit `outcome`
  argument (`Except PyErr V`: `.ok v` models a returned value, `.error e`
  models a raised exception).
* Python exceptions are an inductive `PyErr`; `raise RuntimeError(m) from e`
  becomes `PyErr.runtimeError m e`, keeping the original cause.
* Results of `agent.execute` have an arbitrary type `V` (Python `Any`).
* Functions that both return and mutate produce a pair
  `(return value or exception, updated coordinator)`; mutations performed
  before an exception is raised persist, exactly as in Python.
-/

deriving instance DecidableEq for Except

namespace Coord

/-- Status of a task in the workflow (`class TaskStatus(Enum)`). -/
inductive TaskStatus where
  | pending
  | in_progress
  | completed
  | failed
deriving DecidableEq

/-- The `.value` string of a `TaskStatus` member. -/
def TaskStatus.value : TaskStatus → String
  | .pending => "pending"
  | .in_progress => "in_progress"
  | .completed => "completed"
  | .failed => "failed"

/-- One task record (`class AgentTask`), with result type `V`.
`result` and `error` start as Python `None`, modelled by `Option`. -/
structure AgentTask (V : Type) where
  task_id : String
  agent_name : String
  description : String
  status : TaskStatus
  result : Option V
  error : Option String
deriving DecidableEq

/-- `AgentTask.__init__`: a fresh task is Pending with no result and no error. -/
def AgentTask.new (task_id agent_name description : String) : AgentTask V :=
  { task_id, agent_name, description
    status := TaskStatus.pending, result := none, error := none }

/-- `AgentTask.mark_in_progress`. -/
def AgentTask.mark_in_progress (t : AgentTask V) : AgentTask V :=
  { t with status := TaskStatus.in_progress }

/-- `AgentTask.mark_completed`: sets the status and stores the result.
It does not touch the `error` field. -/
def AgentTask.mark_completed (t : AgentTask V) (result : V) : AgentTask V :=
  { t with status := TaskStatus.completed, result := some result }

/-- `AgentTask.mark_failed`: sets the status and stores the error message.
It does not touch the `result` field. -/
def AgentTask.mark_failed (t : AgentTask V) (error : String) : AgentTask V :=
  { t with status := TaskStatus.failed, error := some error }

/-- Python exceptions observable from the coordinator code. -/
inductive PyErr where
  | valueError (msg : String)
  | keyError (key : String)
  | runtimeError (msg : String) (cause : PyErr)
  | exception (msg : String)
deriving DecidableEq

/-- Python `str(e)` for the exceptions above. `str` of a `KeyError`
is the `repr` of the missing key, i.e. the key in single quotes. -/
def PyErr.str : PyErr → String
  | .valueError msg => msg
  | .keyError key => "\x27" ++ key ++ "\x27"
  | .runtimeError msg _ => msg
  | .exception msg => msg

/-- Association-list lookup, modelling `d[k]` / `k in d` on a Python dict. -/
def dictLookup : List (String × α) → String → Option α
  | [], _ => none
  | p :: l, k => if p.1 = k then some p.2 else dictLookup l k

/-- Association-list insertion, modelling `d[k] = v` on a Python dict:
an existing key keeps its position, a new key goes to the end. -/
def dictInsert : List (String × α) → String → α → List (String × α)
  | [], k, v => [(k, v)]
  | p :: l, k, v => if p.1 = k then (k, v) :: l else p :: dictInsert l k v

/-- Decimal digits of `n`, least significant first, via repeated division:
`fuel` is a structural bound so that the definition computes by reduction. -/
def digitsAux : Nat → Nat → List Nat
  | _, 0 => []
  | 0, _ => []
  | fuel + 1, n + 1 => ((n + 1) % 10) :: digitsAux fuel ((n + 1) / 10)

/-- Decimal digits of `n`, least significant first (`[]` for `0`). -/
def decDigits (n : Nat) : List Nat := digitsAux n n

/-- Digit list (most significant first) of Python `f"{n:04d}"`:
zero-padded on the left to at least four digits. -/
def pad4 (n : Nat) : List Nat :=
  List.replicate (4 - (decDigits n).length) 0 ++ (decDigits n).reverse

/-- The task identifier string `f"task_{n:04d}"` built by `create_task`. -/
def taskIdOf (n : Nat) : String :=
  "task_" ++ String.mk ((pad4 n).map Nat.digitChar)

/-- Coordinator state (`class AgentCoordinator`): the registered agent
names (keys of `self.agents`), the task table `self.tasks`, and
`self.task_counter`. The workspace manager and GitHub client held by the
Python object are never consulted by the task-tracking logic. -/
structure AgentCoordinator (V : Type) where
  agents : List String
  tasks : List (String × AgentTask V)
  task_counter : Nat
deriving DecidableEq

/-- The state built by `AgentCoordinator.__init__`. -/
def initCoordinator (V : Type) : AgentCoordinator V :=
  { agents := [], tasks := [], task_counter := 0 }

/-- Lookup of a task record in the table, `self.tasks[task_id]`. -/
def taskAt (c : AgentCoordinator V) (task_id : String) : Option (AgentTask V) :=
  dictLookup c.tasks task_id

/-- `register_agent`: inserts the name into the registry. Re-registering
an existing name replaces the stored instance and leaves the key set
unchanged. -/
def register_agent (c : AgentCoordinator V) (agent_name : String) : AgentCoordinator V :=
  { c with agents := if agent_name ∈ c.agents then c.agents else c.agents ++ [agent_name] }

/-- `unregister_agent`: removes the name if present, no-op otherwise. -/
def unregister_agent (c : AgentCoordinator V) (agent_name : String) : AgentCoordinator V :=
  { c with agents := c.agents.filter (fun a => a ≠ agent_name) }

/-- `create_task`: raises `ValueError` (leaving the state untouched) when
the agent is not registered; otherwise increments the counter, formats
the identifier, stores a fresh Pending task and returns the identifier. -/
def create_task (c : AgentCoordinator V) (agent_name description : String) :
    Except PyErr String × AgentCoordinator V :=
  if agent_name ∈ c.agents then
    let task_counter := c.task_counter + 1
    let task_id := taskIdOf task_counter
    let task : AgentTask V := AgentTask.new task_id agent_name description
    (Except.ok task_id,
      { c with task_counter, tasks := dictInsert c.tasks task_id task })
  else
    (Except.error (PyErr.valueError
      ("Agent \x27" ++ agent_name ++ "\x27 is not registered")), c)

/-- The coordinator state observable while `agent.execute` runs inside
`execute_task`: the task has been marked InProgress (line
`task.mark_in_progress()`), nothing else has happened yet. -/
def execute_task_started (c : AgentCoordinator V) (task_id : String) : AgentCoordinator V :=
  match taskAt c task_id with
  | none => c
  | some task =>
      { c with tasks := dictInsert c.tasks task_id task.mark_in_progress }

/-- `execute_task`: raises `ValueError` when the task id is unknown;
otherwise marks the task InProgress, looks up the agent (a missing agent
raises `KeyError`, caught by the handler like any other exception), runs
the handle (its behaviour is the `outcome` argument), and either marks
the task Completed and returns the result, or marks it Failed with the
formatted message and raises `RuntimeError(msg) from e`. -/
def execute_task (c : AgentCoordinator V) (task_id : String) (outcome : Except PyErr V) :
    Except PyErr V × AgentCoordinator V :=
  match taskAt c task_id with
  | none =>
      (Except.error (PyErr.valueError
        ("Task \x27" ++ task_id ++ "\x27 not found")), c)
  | some task0 =>
      let task := task0.mark_in_progress
      let c1 : AgentCoordinator V := { c with tasks := dictInsert c.tasks task_id task }
      if task.agent_name ∈ c1.agents then
        match outcome with
        | Except.ok result =>
            (Except.ok result,
              { c1 with tasks := dictInsert c1.tasks task_id (task.mark_completed result) })
        | Except.error e =>
            let error_msg := "Task execution failed: " ++ e.str
            (Except.error (PyErr.runtimeError error_msg e),
              { c1 with tasks := dictInsert c1.tasks task_id (task.mark_failed error_msg) })
      else
        let e := PyErr.keyError task.agent_name
        let error_msg := "Task execution failed: " ++ e.str
        (Except.error (PyErr.runtimeError error_msg e),
          { c1 with tasks := dictInsert c1.tasks task_id (task.mark_failed error_msg) })

/-- The snapshot record returned by `get_task_status`. -/
structure TaskStatusInfo (V : Type) where
  task_id : String
  agent_name : String
  description : String
  status : String
  result : Option V
  error : Option String
deriving DecidableEq

/-- `get_task_status`: raises `ValueError` for an unknown id, otherwise
returns the snapshot dict (status as its `.value` string). -/
def get_task_status (c : AgentCoordinator V) (task_id : String) :
    Except PyErr (TaskStatusInfo V) :=
  match taskAt c task_id with
  | none =>
      Except.error (PyErr.valueError
        ("Task \x27" ++ task_id ++ "\x27 not found"))
  | some task =>
      Except.ok
        { task_id := task.task_id, agent_name := task.agent_name
          description := task.description, status := task.status.value
          result := task.result, error := task.error }

/-- One step of `execute_workflow`: the `agent_name` and `description`
taken from the step dict, plus the behaviour of the agent handle if it
gets invoked for this step. -/
structure WorkflowStep (V : Type) where
  agent_name : String
  description : String
  outcome : Except PyErr V

/-- The loop body of `execute_workflow`: for each step create the task
and execute it immediately, appending the result; the first exception
aborts the loop and propagates, keeping all mutations made so far. -/
def execute_workflow_aux (c : AgentCoordinator V) :
    List (WorkflowStep V) → List V → Except PyErr (List V) × AgentCoordinator V
  | [], results => (Except.ok results, c)
  | step :: rest, results =>
      match create_task c step.agent_name step.description with
      | (Except.error e, c2) => (Except.error e, c2)
      | (Except.ok task_id, c2) =>
          match execute_task c2 task_id step.outcome with
          | (Except.error e, c3) => (Except.error e, c3)
          | (Except.ok result, c3) =>
              execute_workflow_aux c3 rest (results ++ [result])

/-- `execute_workflow`: sequential fold over the steps, starting from an
empty results list. -/
def execute_workflow (c : AgentCoordinator V) (steps : List (WorkflowStep V)) :
    Except PyErr (List V) × AgentCoordinator V :=
  execute_workflow_aux c steps []

/-- `get_pending_tasks`: the Pending tasks, further filtered by agent
name only when the argument is truthy (`if agent_name:`), i.e. present
and non-empty. -/
def get_pending_tasks (c : AgentCoordinator V) (agent_name : Option String) :
    List (AgentTask V) :=
  let tasks := (c.tasks.map Prod.snd).filter
    (fun t => decide (t.status = TaskStatus.pending))
  match agent_name with
  | none => tasks
  | some a =>
      if a = "" then tasks
      else tasks.filter (fun t => decide (t.agent_name = a))

/-- `get_agent_tasks`: every task whose agent name matches. -/
def get_agent_tasks (c : AgentCoordinator V) (agent_name : String) :
    List (AgentTask V) :=
  (c.tasks.map Prod.snd).filter (fun t => decide (t.agent_name = agent_name))

/-- The record returned by `get_workflow_summary`, with the four
per-status counts flattened into fields. -/
structure WorkflowSummary where
  total_tasks : Nat
  registered_agents : List String
  pending : Nat
  in_progress : Nat
  completed : Nat
  failed : Nat
deriving DecidableEq

/-- `get_workflow_summary`: total task count, registered agent names,
and one count per status. -/
def get_workflow_summary (c : AgentCoordinator V) : WorkflowSummary :=
  { total_tasks := c.tasks.length
    registered_agents := c.agents
    pending := (c.tasks.map Prod.snd).countP (fun t => decide (t.status = TaskStatus.pending))
    in_progress := (c.tasks.map Prod.snd).countP (fun t => decide (t.status = TaskStatus.in_progress))
    completed := (c.tasks.map Prod.snd).countP (fun t => decide (t.status = TaskStatus.completed))
    failed := (c.tasks.map Prod.snd).countP (fun t => decide (t.status = TaskStatus.failed)) }

/-- `reset`: clears the task table and zeroes the counter; the agent
registry is untouched. -/
def reset (c : AgentCoordinator V) : AgentCoordinator V :=
  { c with tasks := [], task_counter := 0 }

/-- One observable coordinator operation. Queries (`get_task_status`,
`get_pending_tasks`, `get_agent_tasks`, `get_workflow_summary`) never
mutate the state, so traces only need the mutating operations. -/
inductive Op (V : Type) where
  | register (agent_name : String)
  | unregister (agent_name : String)
  | create (agent_name description : String)
  | execute (task_id : String) (outcome : Except PyErr V)
  | workflow (steps : List (WorkflowStep V))
  | reset

/-- State transition of one operation (return values discarded). -/
def applyOp (c : AgentCoordinator V) : Op V → AgentCoordinator V
  | .register a => register_agent c a
  | .unregister a => unregister_agent c a
  | .create a d => (create_task c a d).2
  | .execute task_id outcome => (execute_task c task_id outcome).2
  | .workflow steps => (execute_workflow c steps).2
  | .reset => reset c

/-- Running a sequence of operations. -/
def runOps (c : AgentCoordinator V) (ops : List (Op V)) : AgentCoordinator V :=
  ops.foldl applyOp c

/-! ## Task identifier arithmetic -/

/-- Value of a digit list, least significant digit first, base 10. -/
def ofDigitsLE : List Nat → Nat
  | [] => 0
  | d :: ds => d + 10 * ofDigitsLE ds

theorem ofDigitsLE_digitsAux (fuel n : Nat) (h : n ≤ fuel) :
    ofDigitsLE (digitsAux fuel n) = n := by
  induction fuel generalizing n with
  | zero =>
      interval_cases n
      rfl
  | succ fuel ih =>
      cases n with
      | zero => rfl
      | succ m =>
          have hdiv : (m + 1) / 10 ≤ fuel := by
            have hlt : (m + 1) / 10 < m + 1 := Nat.div_lt_self (Nat.succ_pos m) (by omega)
            omega
          simp only [digitsAux, ofDigitsLE, ih _ hdiv]
          omega

theorem ofDigitsLE_decDigits (n : Nat) : ofDigitsLE (decDigits n) = n :=
  ofDigitsLE_digitsAux n n (Nat.le_refl n)

theorem digitsAux_lt_ten (fuel n : Nat) : ∀ d ∈ digitsAux fuel n, d < 10 := by
  induction fuel generalizing n with
  | zero =>
      cases n <;> simp [digitsAux]
  | succ fuel ih =>
      cases n with
      | zero => simp [digitsAux]
      | succ m =>
          intro d hd
          simp only [digitsAux, List.mem_cons] at hd
          rcases hd with h | h
          · subst h
            exact Nat.mod_lt _ (by omega)
          · exact ih _ d h

theorem pad4_lt_ten (n : Nat) : ∀ d ∈ pad4 n, d < 10 := by
  intro d hd
  simp only [pad4, List.mem_append, List.mem_replicate, List.mem_reverse] at hd
  rcases hd with ⟨_, h⟩ | h
  · omega
  · exact digitsAux_lt_ten n n d h

theorem ofDigitsLE_append_zeros (xs : List Nat) (k : Nat) :
    ofDigitsLE (xs ++ List.replicate k 0) = ofDigitsLE xs := by
  induction xs with
  | nil =>
      simp only [List.nil_append]
      induction k with
      | zero => rfl
      | succ k ih => simp [List.replicate, ofDigitsLE, ih]
  | cons d ds ih => simp [ofDigitsLE, ih]

/-- Numeric value of a decimal digit character. -/
def digitVal (c : Char) : Nat := c.toNat - 48

theorem digitVal_digitChar (d : Nat) (h : d < 10) :
    digitVal (Nat.digitChar d) = d := by
  interval_cases d <;> rfl

/-- Left inverse of `taskIdOf`: strip the five-character tag and read the
decimal digits back. -/
def parseTaskId (s : String) : Nat :=
  ofDigitsLE (((s.data.drop 5).map digitVal).reverse)

theorem parseTaskId_taskIdOf (n : Nat) : parseTaskId (taskIdOf n) = n := by
  have hdata : (taskIdOf n).data =
      't' :: 'a' :: 's' :: 'k' :: '_' :: (pad4 n).map Nat.digitChar := by
    simp [taskIdOf, String.mk]
  have hmap : ((pad4 n).map Nat.digitChar).map digitVal = pad4 n := by
    rw [List.map_map]
    have hcongr : ∀ d ∈ pad4 n, (digitVal ∘ Nat.digitChar) d = id d := by
      intro d hd
      simp only [Function.comp_apply, id_eq]
      exact digitVal_digitChar d (pad4_lt_ten n d hd)
    rw [List.map_congr_left hcongr, List.map_id]
  have hrev : (pad4 n).reverse = (decDigits n) ++ List.replicate (4 - (decDigits n).length) 0 := by
    simp [pad4]
  calc parseTaskId (taskIdOf n)
      = ofDigitsLE ((((pad4 n).map Nat.digitChar).map digitVal).reverse) := by
        simp [parseTaskId, hdata, List.drop]
    _ = ofDigitsLE ((pad4 n).reverse) := by rw [hmap]
    _ = ofDigitsLE ((decDigits n) ++ List.replicate (4 - (decDigits n).length) 0) := by
        rw [hrev]
    _ = ofDigitsLE (decDigits n) := ofDigitsLE_append_zeros _ _
    _ = n := ofDigitsLE_decDigits n

theorem taskIdOf_injective {m n : Nat} (h : taskIdOf m = taskIdOf n) : m = n := by
  have := congrArg parseTaskId h
  rwa [parseTaskId_taskIdOf, parseTaskId_taskIdOf] at this

/-! ## Dictionary lemmas -/

theorem dictLookup_insert_self (l : List (String × α)) (k : String) (v : α) :
    dictLookup (dictInsert l k v) k = some v := by
  induction l with
  | nil => simp [dictInsert, dictLookup]
  | cons p l ih =>
      by_cases h : p.1 = k
      · simp [dictInsert, dictLookup, h]
      · simp [dictInsert, dictLookup, h, ih]

theorem dictLookup_insert_ne (l : List (String × α)) (k k2 : String) (v : α)
    (h : k2 ≠ k) : dictLookup (dictInsert l k v) k2 = dictLookup l k2 := by
  induction l with
  | nil => simp [dictInsert, dictLookup, Ne.symm h]
  | cons p l ih =>
      simp only [dictInsert]
      by_cases hp : p.1 = k
      · simp [dictLookup, hp, Ne.symm h]
      · simp [dictLookup, hp, ih]

theorem mem_dictInsert (l : List (String × α)) (k : String) (v : α) :
    ∀ p ∈ dictInsert l k v, p = (k, v) ∨ p ∈ l := by
  induction l with
  | nil => simp [dictInsert]
  | cons q l ih =>
      intro p hp
      by_cases hq : q.1 = k
      · simp only [dictInsert, hq, if_pos, List.mem_cons] at hp
        rcases hp with h | h
        · exact Or.inl h
        · exact Or.inr (List.mem_cons_of_mem _ h)
      · simp only [dictInsert, hq, if_neg, not_false_iff, List.mem_cons] at hp
        rcases hp with h | h
        · exact Or.inr (by simp [h])
        · rcases ih p h with h2 | h2
          · exact Or.inl h2
          · exact Or.inr (List.mem_cons_of_mem _ h2)

/-! ## Trace predicates -/

/-- An `execute` operation is single-shot when its target task either
does not exist or is still Pending (i.e. the task is not being
re-executed). All other operations are unconstrained. -/
def okExecB (c : AgentCoordinator V) : Op V → Bool
  | .execute task_id _ =>
      match taskAt c task_id with
      | some t => decide (t.status = TaskStatus.pending)
      | none => true
  | _ => true

/-- A sequence of operations from `c` in which no task is re-executed. -/
def GoodOpsB : AgentCoordinator V → List (Op V) → Bool
  | _, [] => true
  | c, op :: ops => okExecB c op && GoodOpsB (applyOp c op) ops

/-- Whether an operation is the full coordinator `reset`. -/
def isReset : Op V → Bool
  | .reset => true
  | _ => false

/-- A sequence of operations containing no `reset`. -/
def resetFree (ops : List (Op V)) : Bool :=
  ops.all (fun op => ! isReset op)

/-- Forward status order: a status may stay put, Pending may move
anywhere, InProgress may move to a terminal status; terminal statuses
never change. -/
def statusForwardB : TaskStatus → TaskStatus → Bool
  | a, b =>
      decide (a = b) ||
      decide (a = TaskStatus.pending) ||
      (decide (a = TaskStatus.in_progress) &&
        (decide (b = TaskStatus.completed) || decide (b = TaskStatus.failed)))

/-- Forward status order against an optional later task record: the task
must still exist and its status must be a forward move. -/
def statusForwardAt (a : TaskStatus) : Option (AgentTask V) → Bool
  | some u => statusForwardB a u.status
  | none => false

theorem statusForwardB_refl (a : TaskStatus) : statusForwardB a a = true := by
  cases a <;> rfl

theorem statusForwardB_trans (a b c : TaskStatus)
    (h1 : statusForwardB a b = true) (h2 : statusForwardB b c = true) :
    statusForwardB a c = true := by
  revert h1 h2
  cases a <;> cases b <;> cases c <;> decide

/-! ## State invariants -/

/-- Per-task field invariant: the result is present exactly when the
status is Completed and the error exactly when it is Failed. -/
def TaskInv (t : AgentTask V) : Prop :=
  (t.status = TaskStatus.completed ↔ t.result ≠ none) ∧
  (t.status = TaskStatus.failed ↔ t.error ≠ none)

/-- Every task in the table satisfies `TaskInv`. -/
def StateInv (c : AgentCoordinator V) : Prop :=
  ∀ p ∈ c.tasks, TaskInv p.2

/-- Every key in the task table was produced by the identifier format at
some counter value not above the current one. -/
def IdInv (c : AgentCoordinator V) : Prop :=
  ∀ p ∈ c.tasks, ∃ k, k ≤ c.task_counter ∧ p.1 = taskIdOf k

theorem dictLookup_mem (l : List (String × α)) (k : String) (v : α)
    (h : dictLookup l k = some v) : (k, v) ∈ l := by
  induction l with
  | nil => simp [dictLookup] at h
  | cons p l ih =>
      obtain ⟨a, b⟩ := p
      by_cases hp : a = k
      · subst hp
        simp only [dictLookup, if_pos, Option.some.injEq] at h
        subst h
        exact List.mem_cons_self _ _
      · simp only [dictLookup, hp, if_neg, not_false_iff] at h
        exact List.mem_cons_of_mem _ (ih h)

/-! ## Frame lemmas for the operations -/

theorem statusForwardB_pending (b : TaskStatus) :
    statusForwardB TaskStatus.pending b = true := by
  cases b <;> rfl

theorem statusForwardAt_some (a : TaskStatus) (o : Option (AgentTask V))
    (h : statusForwardAt a o = true) :
    ∃ u, o = some u ∧ statusForwardB a u.status = true := by
  cases o with
  | none => simp [statusForwardAt] at h
  | some u => exact ⟨u, rfl, h⟩

theorem execute_task_agents (c : AgentCoordinator V) (tid : String) (o : Except PyErr V) :
    (execute_task c tid o).2.agents = c.agents := by
  unfold execute_task
  cases hfind : taskAt c tid with
  | none => rfl
  | some t0 =>
      by_cases hreg : t0.mark_in_progress.agent_name ∈ c.agents
      · cases o <;> simp [hreg]
      · simp [hreg]

theorem execute_task_counter (c : AgentCoordinator V) (tid : String) (o : Except PyErr V) :
    (execute_task c tid o).2.task_counter = c.task_counter := by
  unfold execute_task
  cases hfind : taskAt c tid with
  | none => rfl
  | some t0 =>
      by_cases hreg : t0.mark_in_progress.agent_name ∈ c.agents
      · cases o <;> simp [hreg]
      · simp [hreg]

theorem execute_task_lookup_ne (c : AgentCoordinator V) (tid : String)
    (o : Except PyErr V) (id : String) (h : id ≠ tid) :
    taskAt (execute_task c tid o).2 id = taskAt c id := by
  unfold execute_task
  cases hfind : taskAt c tid with
  | none => rfl
  | some t0 =>
      by_cases hreg : t0.mark_in_progress.agent_name ∈ c.agents
      · cases o <;>
          simp [hreg, taskAt, dictLookup_insert_ne _ _ _ _ h]
      · simp [hreg, taskAt, dictLookup_insert_ne _ _ _ _ h]

theorem create_task_counter_le (c : AgentCoordinator V) (a d : String) :
    c.task_counter ≤ (create_task c a d).2.task_counter := by
  unfold create_task
  by_cases h : a ∈ c.agents <;> simp [h]

theorem workflow_aux_counter_le (steps : List (WorkflowStep V)) (acc : List V)
    (c : AgentCoordinator V) :
    c.task_counter ≤ (execute_workflow_aux c steps acc).2.task_counter := by
  induction steps generalizing c acc with
  | nil => exact Nat.le_refl _
  | cons step rest ih =>
      unfold execute_workflow_aux
      split
      · rename_i e c2 heq
        have h1 : c.task_counter ≤ c2.task_counter := by
          have := create_task_counter_le c step.agent_name step.description
          rw [heq] at this
          exact this
        exact h1
      · rename_i task_id c2 heq
        have h1 : c.task_counter ≤ c2.task_counter := by
          have := create_task_counter_le c step.agent_name step.description
          rw [heq] at this
          exact this
        split
        · rename_i e c3 heq2
          have h2 : c2.task_counter = c3.task_counter := by
            have := execute_task_counter c2 task_id step.outcome
            rw [heq2] at this
            exact this.symm
          show c.task_counter ≤ c3.task_counter
          omega
        · rename_i result c3 heq2
          have h2 : c2.task_counter = c3.task_counter := by
            have := execute_task_counter c2 task_id step.outcome
            rw [heq2] at this
            exact this.symm
          have h3 := ih (acc ++ [result]) c3
          omega

theorem applyOp_counter_le (c : AgentCoordinator V) (op : Op V)
    (h : isReset op = false) :
    c.task_counter ≤ (applyOp c op).task_counter := by
  cases op with
  | register a => exact Nat.le_refl _
  | unregister a => exact Nat.le_refl _
  | create a d => exact create_task_counter_le c a d
  | execute tid o => exact Nat.le_of_eq (execute_task_counter c tid o).symm
  | workflow steps => exact workflow_aux_counter_le steps [] c
  | reset => simp [isReset] at h

theorem runOps_counter_le (ops : List (Op V)) (c : AgentCoordinator V)
    (h : resetFree ops = true) :
    c.task_counter ≤ (runOps c ops).task_counter := by
  induction ops generalizing c with
  | nil => exact Nat.le_refl _
  | cons op ops ih =>
      simp only [resetFree, List.all_cons, Bool.and_eq_true, Bool.not_eq_true'] at h
      have h1 := applyOp_counter_le c op h.1
      have h2 := ih (applyOp c op) (by simp [resetFree, h.2])
      calc c.task_counter ≤ (applyOp c op).task_counter := h1
        _ ≤ _ := h2

theorem runOps_append (c : AgentCoordinator V) (l1 l2 : List (Op V)) :
    runOps c (l1 ++ l2) = runOps (runOps c l1) l2 := by
  simp [runOps, List.foldl_append]

theorem goodOps_append (c : AgentCoordinator V) (l1 l2 : List (Op V))
    (h : GoodOpsB c (l1 ++ l2) = true) :
    GoodOpsB c l1 = true ∧ GoodOpsB (runOps c l1) l2 = true := by
  induction l1 generalizing c with
  | nil => exact ⟨rfl, h⟩
  | cons op l1 ih =>
      simp only [List.cons_append, GoodOpsB, Bool.and_eq_true] at h
      obtain ⟨hok, htail⟩ := h
      obtain ⟨h1, h2⟩ := ih (applyOp c op) htail
      refine ⟨?_, ?_⟩
      · simp [GoodOpsB, hok, h1]
      · simpa [runOps] using h2

/-! ## Characterization of create_task and execute_task -/

theorem create_task_ok (c : AgentCoordinator V) (a d r : String) (c2 : AgentCoordinator V)
    (h : create_task c a d = (Except.ok r, c2)) :
    a ∈ c.agents ∧ r = taskIdOf (c.task_counter + 1) ∧
      c2 = { c with task_counter := c.task_counter + 1, tasks := dictInsert c.tasks (taskIdOf (c.task_counter + 1)) (AgentTask.new (taskIdOf (c.task_counter + 1)) a d) } := by
  unfold create_task at h
  by_cases hreg : a ∈ c.agents
  · simp only [hreg, if_pos, Prod.mk.injEq, Except.ok.injEq] at h
    exact ⟨hreg, h.1.symm, h.2.symm⟩
  · simp [hreg] at h

theorem execute_task_ok_spec (c : AgentCoordinator V) (tid : String)
    (t0 : AgentTask V) (v : V) (hfind : taskAt c tid = some t0)
    (hreg : t0.agent_name ∈ c.agents) :
    execute_task c tid (Except.ok v) =
      (Except.ok v, { c with tasks := dictInsert (dictInsert c.tasks tid t0.mark_in_progress) tid (t0.mark_in_progress.mark_completed v) }) := by
  simp [execute_task, hfind, AgentTask.mark_in_progress, hreg]

theorem execute_task_err_spec (c : AgentCoordinator V) (tid : String)
    (t0 : AgentTask V) (e : PyErr) (hfind : taskAt c tid = some t0)
    (hreg : t0.agent_name ∈ c.agents) :
    execute_task c tid (Except.error e) =
      (Except.error (PyErr.runtimeError ("Task execution failed: " ++ e.str) e),
        { c with tasks := dictInsert (dictInsert c.tasks tid t0.mark_in_progress) tid (t0.mark_in_progress.mark_failed ("Task execution failed: " ++ e.str)) }) := by
  simp [execute_task, hfind, AgentTask.mark_in_progress, hreg]

theorem execute_task_keyerr_spec (c : AgentCoordinator V) (tid : String)
    (t0 : AgentTask V) (o : Except PyErr V) (hfind : taskAt c tid = some t0)
    (hreg : t0.agent_name ∉ c.agents) :
    execute_task c tid o =
      (Except.error (PyErr.runtimeError
          ("Task execution failed: " ++ (PyErr.keyError t0.agent_name).str)
          (PyErr.keyError t0.agent_name)),
        { c with tasks := dictInsert (dictInsert c.tasks tid t0.mark_in_progress) tid (t0.mark_in_progress.mark_failed ("Task execution failed: " ++ (PyErr.keyError t0.agent_name).str)) }) := by
  simp [execute_task, hfind, AgentTask.mark_in_progress, hreg]

/-! ## Preservation of the identifier invariant -/

theorem idInv_insert (c : AgentCoordinator V) (tid : String) (t : AgentTask V)
    (hkey : ∃ k, k ≤ c.task_counter ∧ tid = taskIdOf k) (h : IdInv c) :
    IdInv { c with tasks := dictInsert c.tasks tid t } := by
  intro p hp
  rcases mem_dictInsert _ _ _ p hp with rfl | hmem
  · exact hkey
  · exact h p hmem

theorem idInv_create (c : AgentCoordinator V) (a d : String) (h : IdInv c) :
    IdInv (create_task c a d).2 := by
  unfold create_task
  by_cases hreg : a ∈ c.agents
  · simp only [hreg, if_pos]
    intro p hp
    rcases mem_dictInsert _ _ _ p hp with rfl | hmem
    · exact ⟨c.task_counter + 1, Nat.le_refl _, rfl⟩
    · obtain ⟨k, hk, hid⟩ := h p hmem
      exact ⟨k, Nat.le_succ_of_le hk, hid⟩
  · simp only [hreg, if_neg, not_false_iff]
    exact h

theorem idInv_execute (c : AgentCoordinator V) (tid : String) (o : Except PyErr V)
    (h : IdInv c) : IdInv (execute_task c tid o).2 := by
  cases hfind : taskAt c tid with
  | none =>
      unfold execute_task
      rw [hfind]
      exact h
  | some t0 =>
      have hkey : ∃ k, k ≤ c.task_counter ∧ tid = taskIdOf k :=
        h _ (dictLookup_mem _ _ _ hfind)
      by_cases hreg : t0.agent_name ∈ c.agents
      · cases o with
        | ok v =>
            rw [execute_task_ok_spec c tid t0 v hfind hreg]
            exact idInv_insert { c with tasks := dictInsert c.tasks tid t0.mark_in_progress } tid _ hkey (idInv_insert c tid _ hkey h)
        | error e =>
            rw [execute_task_err_spec c tid t0 e hfind hreg]
            exact idInv_insert { c with tasks := dictInsert c.tasks tid t0.mark_in_progress } tid _ hkey (idInv_insert c tid _ hkey h)
      · rw [execute_task_keyerr_spec c tid t0 o hfind hreg]
        exact idInv_insert { c with tasks := dictInsert c.tasks tid t0.mark_in_progress } tid _ hkey (idInv_insert c tid _ hkey h)

theorem idInv_workflow_aux (steps : List (WorkflowStep V)) (acc : List V)
    (c : AgentCoordinator V) (h : IdInv c) :
    IdInv (execute_workflow_aux c steps acc).2 := by
  induction steps generalizing c acc with
  | nil => exact h
  | cons step rest ih =>
      unfold execute_workflow_aux
      split
      · rename_i e c2 heq
        have h2 := idInv_create c step.agent_name step.description h
        rw [heq] at h2
        exact h2
      · rename_i task_id c2 heq
        have h2 : IdInv c2 := by
          have := idInv_create c step.agent_name step.description h
          rwa [heq] at this
        split
        · rename_i e c3 heq2
          have h3 := idInv_execute c2 task_id step.outcome h2
          rw [heq2] at h3
          exact h3
        · rename_i result c3 heq2
          have h3 : IdInv c3 := by
            have := idInv_execute c2 task_id step.outcome h2
            rwa [heq2] at this
          exact ih (acc ++ [result]) c3 h3

theorem idInv_applyOp (c : AgentCoordinator V) (op : Op V) (h : IdInv c) :
    IdInv (applyOp c op) := by
  cases op with
  | register a => exact h
  | unregister a => exact h
  | create a d => exact idInv_create c a d h
  | execute tid o => exact idInv_execute c tid o h
  | workflow steps => exact idInv_workflow_aux steps [] c h
  | reset =>
      intro p hp
      simp [applyOp, reset] at hp

theorem idInv_runOps (ops : List (Op V)) (c : AgentCoordinator V) (h : IdInv c) :
    IdInv (runOps c ops) := by
  induction ops generalizing c with
  | nil => exact h
  | cons op ops ih => exact ih (applyOp c op) (idInv_applyOp c op h)

theorem idInv_init : IdInv (initCoordinator V) := by
  intro p hp
  simp [initCoordinator] at hp

/-! ## Preservation of the result/error field invariant -/

theorem pending_fields (t : AgentTask V) (h : TaskInv t)
    (hp : t.status = TaskStatus.pending) : t.result = none ∧ t.error = none := by
  constructor
  · by_contra hr
    have hc := h.1.mpr hr
    rw [hp] at hc
    exact absurd hc (by simp)
  · by_contra hr
    have hc := h.2.mpr hr
    rw [hp] at hc
    exact absurd hc (by simp)

theorem stateInv_insert (c : AgentCoordinator V) (tid : String) (t : AgentTask V)
    (ht : TaskInv t) (h : StateInv c) :
    StateInv { c with tasks := dictInsert c.tasks tid t } := by
  intro p hp
  rcases mem_dictInsert _ _ _ p hp with rfl | hmem
  · exact ht
  · exact h p hmem

theorem taskInv_new (id a d : String) : TaskInv (AgentTask.new (V := V) id a d) := by
  simp [TaskInv, AgentTask.new]

theorem stateInv_create (c : AgentCoordinator V) (a d : String) (h : StateInv c) :
    StateInv (create_task c a d).2 := by
  unfold create_task
  by_cases hreg : a ∈ c.agents
  · simp only [hreg, if_pos]
    exact stateInv_insert _ _ _ (taskInv_new _ _ _) h
  · simp only [hreg, if_neg, not_false_iff]
    exact h

theorem stateInv_execute (c : AgentCoordinator V) (tid : String) (o : Except PyErr V)
    (h : StateInv c)
    (hok : ∀ t, taskAt c tid = some t → t.status = TaskStatus.pending) :
    StateInv (execute_task c tid o).2 := by
  cases hfind : taskAt c tid with
  | none =>
      unfold execute_task
      rw [hfind]
      exact h
  | some t0 =>
      have ht0 : TaskInv t0 := h _ (dictLookup_mem _ _ _ hfind)
      obtain ⟨hres, herr⟩ := pending_fields t0 ht0 (hok t0 hfind)
      have hprog : TaskInv (t0.mark_in_progress) := by
        simp [TaskInv, AgentTask.mark_in_progress, hres, herr]
      by_cases hreg : t0.agent_name ∈ c.agents
      · cases o with
        | ok v =>
            rw [execute_task_ok_spec c tid t0 v hfind hreg]
            refine stateInv_insert _ _ _ ?_ (stateInv_insert c tid _ hprog h)
            simp [TaskInv, AgentTask.mark_completed, AgentTask.mark_in_progress, herr]
        | error e =>
            rw [execute_task_err_spec c tid t0 e hfind hreg]
            refine stateInv_insert _ _ _ ?_ (stateInv_insert c tid _ hprog h)
            simp [TaskInv, AgentTask.mark_failed, AgentTask.mark_in_progress, hres]
      · rw [execute_task_keyerr_spec c tid t0 o hfind hreg]
        refine stateInv_insert _ _ _ ?_ (stateInv_insert c tid _ hprog h)
        simp [TaskInv, AgentTask.mark_failed, AgentTask.mark_in_progress, hres]

theorem create_task_error (c : AgentCoordinator V) (a d : String) (e : PyErr)
    (c2 : AgentCoordinator V) (h : create_task c a d = (Except.error e, c2)) :
    c2 = c := by
  unfold create_task at h
  by_cases hreg : a ∈ c.agents
  · simp [hreg] at h
  · simp only [hreg, if_neg, not_false_iff, Prod.mk.injEq] at h
    exact h.2.symm

theorem stateInv_workflow_aux (steps : List (WorkflowStep V)) (acc : List V)
    (c : AgentCoordinator V) (h : StateInv c) :
    StateInv (execute_workflow_aux c steps acc).2 := by
  induction steps generalizing c acc with
  | nil => exact h
  | cons step rest ih =>
      unfold execute_workflow_aux
      split
      · rename_i e c2 heq
        rw [create_task_error c _ _ e c2 heq]
        exact h
      · rename_i task_id c2 heq
        obtain ⟨hreg, htid, hc2⟩ := create_task_ok c _ _ _ _ heq
        have h2 : StateInv c2 := by
          have := stateInv_create c step.agent_name step.description h
          rwa [heq] at this
        have hok2 : ∀ t, taskAt c2 task_id = some t → t.status = TaskStatus.pending := by
          intro t hfind
          rw [hc2, htid] at hfind
          simp only [taskAt] at hfind
          rw [dictLookup_insert_self] at hfind
          cases hfind
          rfl
        split
        · rename_i e c3 heq2
          have h3 := stateInv_execute c2 task_id step.outcome h2 hok2
          rw [heq2] at h3
          exact h3
        · rename_i result c3 heq2
          have h3 : StateInv c3 := by
            have := stateInv_execute c2 task_id step.outcome h2 hok2
            rwa [heq2] at this
          exact ih (acc ++ [result]) c3 h3

theorem stateInv_applyOp (c : AgentCoordinator V) (op : Op V) (h : StateInv c)
    (hok : okExecB c op = true) : StateInv (applyOp c op) := by
  cases op with
  | register a => exact h
  | unregister a => exact h
  | create a d => exact stateInv_create c a d h
  | execute tid o =>
      refine stateInv_execute c tid o h ?_
      intro t hfind
      simp only [okExecB, hfind] at hok
      exact of_decide_eq_true hok
  | workflow steps => exact stateInv_workflow_aux steps [] c h
  | reset =>
      intro p hp
      simp [applyOp, reset] at hp

theorem stateInv_runOps (ops : List (Op V)) (c : AgentCoordinator V)
    (h : StateInv c) (hgood : GoodOpsB c ops = true) : StateInv (runOps c ops) := by
  induction ops generalizing c with
  | nil => exact h
  | cons op ops ih =>
      simp only [GoodOpsB, Bool.and_eq_true] at hgood
      exact ih (applyOp c op) (stateInv_applyOp c op h hgood.1) hgood.2

theorem stateInv_init : StateInv (initCoordinator V) := by
  intro p hp
  simp [initCoordinator] at hp

/-! ## Forward movement of statuses -/

theorem create_task_lookup_old (c : AgentCoordinator V) (a d id : String)
    (t : AgentTask V) (hid : IdInv c) (h : taskAt c id = some t) :
    taskAt (create_task c a d).2 id = some t := by
  unfold create_task
  by_cases hreg : a ∈ c.agents
  · simp only [hreg, if_pos]
    obtain ⟨k, hk, hkid⟩ := hid _ (dictLookup_mem _ _ _ h)
    have hkid2 : id = taskIdOf k := hkid
    have hne : id ≠ taskIdOf (c.task_counter + 1) := by
      rw [hkid2]
      intro hEq
      have := taskIdOf_injective hEq
      omega
    simpa [taskAt, dictLookup_insert_ne _ _ _ _ hne] using h
  · simp only [hreg, if_neg, not_false_iff]
    exact h

theorem workflow_aux_lookup_old (steps : List (WorkflowStep V)) (acc : List V)
    (c : AgentCoordinator V) (id : String) (t : AgentTask V)
    (hid : IdInv c) (h : taskAt c id = some t) :
    taskAt (execute_workflow_aux c steps acc).2 id = some t := by
  induction steps generalizing c acc with
  | nil => exact h
  | cons step rest ih =>
      unfold execute_workflow_aux
      split
      · rename_i e c2 heq
        rw [create_task_error c _ _ e c2 heq]
        exact h
      · rename_i task_id c2 heq
        obtain ⟨hreg, htid, hc2⟩ := create_task_ok c _ _ _ _ heq
        have h2 : taskAt c2 id = some t := by
          have := create_task_lookup_old c step.agent_name step.description id t hid h
          rwa [heq] at this
        have hid2 : IdInv c2 := by
          have := idInv_create c step.agent_name step.description hid
          rwa [heq] at this
        have hne : id ≠ task_id := by
          obtain ⟨k, hk, hkid⟩ := hid _ (dictLookup_mem _ _ _ h)
          have hkid2 : id = taskIdOf k := hkid
          rw [hkid2, htid]
          intro hEq
          have := taskIdOf_injective hEq
          omega
        split
        · rename_i e c3 heq2
          have h3 := execute_task_lookup_ne c2 task_id step.outcome id hne
          rw [heq2] at h3
          rw [h3]
          exact h2
        · rename_i result c3 heq2
          have h3 : taskAt c3 id = some t := by
            have := execute_task_lookup_ne c2 task_id step.outcome id hne
            rw [heq2] at this
            rw [this]
            exact h2
          have hid3 : IdInv c3 := by
            have := idInv_execute c2 task_id step.outcome hid2
            rwa [heq2] at this
          exact ih (acc ++ [result]) c3 hid3 h3

theorem applyOp_forward (c : AgentCoordinator V) (op : Op V) (hid : IdInv c)
    (hok : okExecB c op = true) (hnr : isReset op = false) (id : String)
    (t : AgentTask V) (h : taskAt c id = some t) :
    statusForwardAt t.status (taskAt (applyOp c op) id) = true := by
  cases op with
  | register a =>
      have h2 : taskAt (applyOp c (Op.register a)) id = some t := h
      rw [h2]
      simp [statusForwardAt, statusForwardB_refl]
  | unregister a =>
      have h2 : taskAt (applyOp c (Op.unregister a)) id = some t := h
      rw [h2]
      simp [statusForwardAt, statusForwardB_refl]
  | create a d =>
      have h2 := create_task_lookup_old c a d id t hid h
      have h3 : taskAt (applyOp c (Op.create a d)) id = some t := h2
      rw [h3]
      simp [statusForwardAt, statusForwardB_refl]
  | execute tid o =>
      by_cases hidtid : id = tid
      · subst hidtid
        have hpend : t.status = TaskStatus.pending := by
          simp only [okExecB, h] at hok
          exact of_decide_eq_true hok
        by_cases hreg : t.agent_name ∈ c.agents
        · cases o with
          | ok v =>
              have hspec := execute_task_ok_spec c id t v h hreg
              show statusForwardAt t.status (taskAt (execute_task c id (Except.ok v)).2 id) = true
              rw [hspec]
              simp only [taskAt, dictLookup_insert_self]
              rw [hpend]
              simp [statusForwardAt, statusForwardB_pending]
          | error e =>
              have hspec := execute_task_err_spec c id t e h hreg
              show statusForwardAt t.status (taskAt (execute_task c id (Except.error e)).2 id) = true
              rw [hspec]
              simp only [taskAt, dictLookup_insert_self]
              rw [hpend]
              simp [statusForwardAt, statusForwardB_pending]
        · have hspec := execute_task_keyerr_spec c id t o h hreg
          show statusForwardAt t.status (taskAt (execute_task c id o).2 id) = true
          rw [hspec]
          simp only [taskAt, dictLookup_insert_self]
          rw [hpend]
          simp [statusForwardAt, statusForwardB_pending]
      · have h2 := execute_task_lookup_ne c tid o id hidtid
        show statusForwardAt t.status (taskAt (execute_task c tid o).2 id) = true
        rw [h2, h]
        simp [statusForwardAt, statusForwardB_refl]
  | workflow steps =>
      have h2 := workflow_aux_lookup_old steps [] c id t hid h
      show statusForwardAt t.status (taskAt (execute_workflow_aux c steps []).2 id) = true
      rw [h2]
      simp [statusForwardAt, statusForwardB_refl]
  | reset => simp [isReset] at hnr

theorem runOps_forward (ops : List (Op V)) (c : AgentCoordinator V)
    (hid : IdInv c) (hgood : GoodOpsB c ops = true) (hrf : resetFree ops = true)
    (id : String) (t : AgentTask V) (h : taskAt c id = some t) :
    statusForwardAt t.status (taskAt (runOps c ops) id) = true := by
  induction ops generalizing c t with
  | nil =>
      show statusForwardAt t.status (taskAt c id) = true
      rw [h]
      simp [statusForwardAt, statusForwardB_refl]
  | cons op ops ih =>
      simp only [GoodOpsB, Bool.and_eq_true] at hgood
      simp only [resetFree, List.all_cons, Bool.and_eq_true, Bool.not_eq_true'] at hrf
      have hstep := applyOp_forward c op hid hgood.1 hrf.1 id t h
      obtain ⟨t1, ht1, hfw1⟩ := statusForwardAt_some _ _ hstep
      have hrest := ih (applyOp c op) (idInv_applyOp c op hid) hgood.2 hrf.2 t1 ht1
      obtain ⟨t2, ht2, hfw2⟩ := statusForwardAt_some _ _ hrest
      show statusForwardAt t.status (taskAt (runOps (applyOp c op) ops) id) = true
      rw [ht2]
      exact statusForwardB_trans _ _ _ hfw1 hfw2

/-! ## Further helper lemmas -/

theorem dictInsert_dictInsert (l : List (String × α)) (k : String) (x y : α) :
    dictInsert (dictInsert l k x) k y = dictInsert l k y := by
  induction l with
  | nil => simp [dictInsert]
  | cons p l ih =>
      by_cases hp : p.1 = k
      · simp [dictInsert, hp]
      · simp [dictInsert, hp, ih]

theorem execute_workflow_aux_step_ok (c : AgentCoordinator V) (step : WorkflowStep V)
    (rest : List (WorkflowStep V)) (acc : List V) (tid : String)
    (c2 : AgentCoordinator V) (r : V) (c3 : AgentCoordinator V)
    (hc : create_task c step.agent_name step.description = (Except.ok tid, c2))
    (he : execute_task c2 tid step.outcome = (Except.ok r, c3)) :
    execute_workflow_aux c (step :: rest) acc = execute_workflow_aux c3 rest (acc ++ [r]) := by
  conv_lhs => unfold execute_workflow_aux
  rw [hc]
  simp only [he]

theorem execute_workflow_aux_step_err (c : AgentCoordinator V) (step : WorkflowStep V)
    (rest : List (WorkflowStep V)) (acc : List V) (tid : String)
    (c2 : AgentCoordinator V) (e : PyErr) (c3 : AgentCoordinator V)
    (hc : create_task c step.agent_name step.description = (Except.ok tid, c2))
    (he : execute_task c2 tid step.outcome = (Except.error e, c3)) :
    execute_workflow_aux c (step :: rest) acc = (Except.error e, c3) := by
  conv_lhs => unfold execute_workflow_aux
  rw [hc]
  simp only [he]

theorem create_task_ok_fst (c : AgentCoordinator V) (a d id : String)
    (h : (create_task c a d).1 = Except.ok id) :
    id = taskIdOf (c.task_counter + 1) ∧
      (create_task c a d).2.task_counter = c.task_counter + 1 := by
  unfold create_task at h ⊢
  by_cases hreg : a ∈ c.agents
  · constructor
    · simp only [hreg, if_pos, Except.ok.injEq] at h
      exact h.symm
    · simp [hreg]
  · simp [hreg] at h

/-! ## The claims -/

/-- C1 (amended): in every operation sequence from a fresh coordinator in
which `execute_task` is invoked only on tasks that are still Pending
(no task is re-executed), every task in the table carries exactly one of
the four statuses, its result is set if and only if its status is
Completed, its error is set if and only if its status is Failed, and
result and error are never both set. The unamended claim, which also
covers repeated `execute_task` calls on one task identifier, is refuted
by `c1_result_error_counterexample`: a second execution overwrites the
status but `mark_failed` never clears a previously stored result. -/
theorem c1_result_error_iff_status (V : Type) (ops : List (Op V)) (id : String)
    (t : AgentTask V)
    (hgood : GoodOpsB (initCoordinator V) ops = true)
    (hfind : taskAt (runOps (initCoordinator V) ops) id = some t) :
    (t.status = TaskStatus.pending ∨ t.status = TaskStatus.in_progress ∨
      t.status = TaskStatus.completed ∨ t.status = TaskStatus.failed) ∧
    (t.status = TaskStatus.completed ↔ t.result ≠ none) ∧
    (t.status = TaskStatus.failed ↔ t.error ≠ none) ∧
    ¬(t.result ≠ none ∧ t.error ≠ none) := by
  have hinv := stateInv_runOps ops _ stateInv_init hgood
  have hT : TaskInv t := hinv _ (dictLookup_mem _ _ _ hfind)
  refine ⟨?_, hT.1, hT.2, ?_⟩
  · cases t.status
    · exact Or.inl rfl
    · exact Or.inr (Or.inl rfl)
    · exact Or.inr (Or.inr (Or.inl rfl))
    · exact Or.inr (Or.inr (Or.inr rfl))
  · rintro ⟨hr, he⟩
    have h1 := hT.1.mpr hr
    have h2 := hT.2.mpr he
    rw [h1] at h2
    exact absurd h2 (by simp)

/-- Witness for the amended C1: after registering an agent, creating one
task and executing it once successfully, the stored task satisfies the
field invariant. -/
theorem c1_result_error_iff_status_witness :
    (((AgentTask.mk "task_0001" "a" "x" TaskStatus.completed (some 5) none : AgentTask Nat).status = TaskStatus.pending ∨
      (AgentTask.mk "task_0001" "a" "x" TaskStatus.completed (some 5) none : AgentTask Nat).status = TaskStatus.in_progress ∨
      (AgentTask.mk "task_0001" "a" "x" TaskStatus.completed (some 5) none : AgentTask Nat).status = TaskStatus.completed ∨
      (AgentTask.mk "task_0001" "a" "x" TaskStatus.completed (some 5) none : AgentTask Nat).status = TaskStatus.failed) ∧
    ((AgentTask.mk "task_0001" "a" "x" TaskStatus.completed (some 5) none : AgentTask Nat).status = TaskStatus.completed ↔ (AgentTask.mk "task_0001" "a" "x" TaskStatus.completed (some 5) none : AgentTask Nat).result ≠ none) ∧
    ((AgentTask.mk "task_0001" "a" "x" TaskStatus.completed (some 5) none : AgentTask Nat).status = TaskStatus.failed ↔ (AgentTask.mk "task_0001" "a" "x" TaskStatus.completed (some 5) none : AgentTask Nat).error ≠ none) ∧
    ¬((AgentTask.mk "task_0001" "a" "x" TaskStatus.completed (some 5) none : AgentTask Nat).result ≠ none ∧ (AgentTask.mk "task_0001" "a" "x" TaskStatus.completed (some 5) none : AgentTask Nat).error ≠ none)) :=
  c1_result_error_iff_status Nat
    [Op.register "a", Op.create "a" "x", Op.execute "task_0001" (Except.ok 5)]
    "task_0001" (AgentTask.mk "task_0001" "a" "x" TaskStatus.completed (some 5) none)
    (by decide) (by decide)

/-- C1 is false as stated: executing a task a second time after it has
Completed, with a handle that now raises, leaves the task Failed with an
error set while the result from the first execution is still set, so the
result is set although the status is not Completed, and result and error
are not mutually exclusive across the task's lifetime. -/
theorem c1_result_error_counterexample :
    (taskAt (runOps (initCoordinator Nat)
      [Op.register "a", Op.create "a" "x",
       Op.execute "task_0001" (Except.ok 5),
       Op.execute "task_0001" (Except.error (PyErr.exception "boom"))]) "task_0001").map
        (fun t => (t.status, t.result, t.error))
      = some (TaskStatus.failed, some 5, some "Task execution failed: boom") := by
  decide

/-- C2 (amended): in every operation sequence from a fresh coordinator in
which `execute_task` is invoked only on tasks that are still Pending, and
whose observed span contains no `reset`, every task present at some point
is still present later and its status has only moved forward in the order
Pending, InProgress, Completed/Failed. The unamended claim, which covers
re-execution, is refuted by `c2_backward_counterexample`: re-executing a
Completed task moves it back to InProgress while the handle runs, and to
Failed if the handle raises. -/
theorem c2_status_forward_only (V : Type) (ops1 ops2 : List (Op V)) (id : String)
    (t : AgentTask V)
    (hgood : GoodOpsB (initCoordinator V) (ops1 ++ ops2) = true)
    (hrf : resetFree ops2 = true)
    (hfind : taskAt (runOps (initCoordinator V) ops1) id = some t) :
    statusForwardAt t.status (taskAt (runOps (initCoordinator V) (ops1 ++ ops2)) id) = true := by
  obtain ⟨hg1, hg2⟩ := goodOps_append _ ops1 ops2 hgood
  rw [runOps_append]
  exact runOps_forward ops2 _ (idInv_runOps ops1 _ idInv_init) hg2 hrf id t hfind

/-- Witness for the amended C2: a task created and then executed once
moves forward from Pending. -/
theorem c2_status_forward_only_witness :
    statusForwardAt (AgentTask.mk "task_0001" "a" "x" TaskStatus.pending none none : AgentTask Nat).status
      (taskAt (runOps (initCoordinator Nat)
        ([Op.register "a", Op.create "a" "x"] ++ [Op.execute "task_0001" (Except.ok 5)]))
        "task_0001") = true :=
  c2_status_forward_only Nat [Op.register "a", Op.create "a" "x"]
    [Op.execute "task_0001" (Except.ok 5)] "task_0001"
    (AgentTask.mk "task_0001" "a" "x" TaskStatus.pending none none)
    (by decide) (by decide) (by decide)

/-- C2 is false as stated: after a task has Completed, invoking
`execute_task` on it again moves its status backward — to InProgress at
the observable point while the handle runs, and to Failed when the
handle raises — so a task that reached Completed does return to
InProgress and does not transition forward only. -/
theorem c2_backward_counterexample :
    ((taskAt (runOps (initCoordinator Nat)
        [Op.register "a", Op.create "a" "x", Op.execute "task_0001" (Except.ok 5)])
        "task_0001").map (fun t => t.status) = some TaskStatus.completed) ∧
    ((taskAt (execute_task_started (runOps (initCoordinator Nat)
        [Op.register "a", Op.create "a" "x", Op.execute "task_0001" (Except.ok 5)])
        "task_0001") "task_0001").map (fun t => t.status) = some TaskStatus.in_progress) ∧
    ((taskAt (execute_task (runOps (initCoordinator Nat)
        [Op.register "a", Op.create "a" "x", Op.execute "task_0001" (Except.ok 5)])
        "task_0001" (Except.error (PyErr.exception "boom"))).2 "task_0001").map
        (fun t => t.status) = some TaskStatus.failed) := by
  decide

/-- C3 (amended): task identifiers are unique and monotonically assigned
within any reset-free span: if one successful `create_task` returns
`id1` and, after any further operations containing no `reset`, another
successful `create_task` returns `id2`, then `id1 ≠ id2`. The unamended
claim, which also covers sequences containing `reset`, is refuted by
`c3_id_reuse_counterexample`: `reset` zeroes the task counter, so the
very next creation reuses the identifier of the first task of the
previous epoch within one process lifetime. -/
theorem c3_ids_unique_between_resets (V : Type) (ops1 ops2 : List (Op V))
    (a d a2 d2 id1 id2 : String)
    (hrf : resetFree ops2 = true)
    (h1 : (create_task (runOps (initCoordinator V) ops1) a d).1 = Except.ok id1)
    (h2 : (create_task (runOps ((create_task (runOps (initCoordinator V) ops1) a d).2) ops2) a2 d2).1 = Except.ok id2) :
    id1 ≠ id2 := by
  obtain ⟨hid1, hcnt1⟩ := create_task_ok_fst _ _ _ _ h1
  obtain ⟨hid2, _⟩ := create_task_ok_fst _ _ _ _ h2
  have hmono := runOps_counter_le ops2 ((create_task (runOps (initCoordinator V) ops1) a d).2) hrf
  rw [hcnt1] at hmono
  rw [hid1, hid2]
  intro hEq
  have := taskIdOf_injective hEq
  omega

/-- Witness for the amended C3: two back-to-back creations return the
distinct identifiers task_0001 and task_0002. -/
theorem c3_ids_unique_between_resets_witness :
    (create_task (runOps (initCoordinator Nat) [Op.register "a"]) "a" "x").1 = Except.ok "task_0001" ∧
    ("task_0001" : String) ≠ "task_0002" :=
  ⟨by decide,
    c3_ids_unique_between_resets Nat [Op.register "a"] [] "a" "x" "a" "y"
      "task_0001" "task_0002" (by decide) (by decide) (by decide)⟩

/-- C3 is false as stated: in a single process lifetime, a successful
creation returns task_0001, and after a `reset` (which sets the counter
back to 0) the next successful creation returns task_0001 again, so a
task identifier is reused. -/
theorem c3_id_reuse_counterexample :
    (create_task (runOps (initCoordinator Nat) [Op.register "a"]) "a" "x").1
      = Except.ok "task_0001" ∧
    (create_task (runOps (initCoordinator Nat)
      [Op.register "a", Op.create "a" "x", Op.reset]) "a" "y").1
      = Except.ok "task_0001" := by
  decide

/-- C4: for every three-step workflow whose agents are all registered,
where step 1's handle returns a value and step 2's handle raises:
`execute_workflow` raises the wrapping RuntimeError, the task created
for step 1 ends Completed with its result recorded, the task created for
step 2 ends Failed with the formatted error, the counter advanced by
exactly two so no task was ever created for step 3, every other table
entry is untouched, and step 1's result stays retrievable through
`get_task_status` even though the aggregate result list was never
returned. -/
theorem c4_workflow_step2_failure (V : Type) (c : AgentCoordinator V)
    (a1 d1 a2 d2 a3 d3 : String) (v1 : V) (e : PyErr) (o3 : Except PyErr V)
    (h1 : a1 ∈ c.agents) (h2 : a2 ∈ c.agents) (h3 : a3 ∈ c.agents) :
    (execute_workflow c [⟨a1, d1, Except.ok v1⟩, ⟨a2, d2, Except.error e⟩, ⟨a3, d3, o3⟩]).1
      = Except.error (PyErr.runtimeError ("Task execution failed: " ++ e.str) e) ∧
    (taskAt (execute_workflow c [⟨a1, d1, Except.ok v1⟩, ⟨a2, d2, Except.error e⟩, ⟨a3, d3, o3⟩]).2
        (taskIdOf (c.task_counter + 1))).map (fun u => (u.status, u.result, u.error))
      = some (TaskStatus.completed, some v1, none) ∧
    (taskAt (execute_workflow c [⟨a1, d1, Except.ok v1⟩, ⟨a2, d2, Except.error e⟩, ⟨a3, d3, o3⟩]).2
        (taskIdOf (c.task_counter + 2))).map (fun u => (u.status, u.error))
      = some (TaskStatus.failed, some ("Task execution failed: " ++ e.str)) ∧
    (execute_workflow c [⟨a1, d1, Except.ok v1⟩, ⟨a2, d2, Except.error e⟩, ⟨a3, d3, o3⟩]).2.task_counter
      = c.task_counter + 2 ∧
    (∀ id, id ≠ taskIdOf (c.task_counter + 1) → id ≠ taskIdOf (c.task_counter + 2) →
      taskAt (execute_workflow c [⟨a1, d1, Except.ok v1⟩, ⟨a2, d2, Except.error e⟩, ⟨a3, d3, o3⟩]).2 id
        = taskAt c id) ∧
    get_task_status (execute_workflow c [⟨a1, d1, Except.ok v1⟩, ⟨a2, d2, Except.error e⟩, ⟨a3, d3, o3⟩]).2
        (taskIdOf (c.task_counter + 1))
      = Except.ok (TaskStatusInfo.mk (taskIdOf (c.task_counter + 1)) a1 d1 "completed" (some v1) none) := by
  have hne : taskIdOf (c.task_counter + 1) ≠ taskIdOf (c.task_counter + 2) := by
    intro hEq
    have := taskIdOf_injective hEq
    omega
  set id1 := taskIdOf (c.task_counter + 1) with hid1
  set id2 := taskIdOf (c.task_counter + 2) with hid2
  set msg := "Task execution failed: " ++ e.str with hmsg
  set T1 : AgentTask V := AgentTask.new id1 a1 d1 with hT1
  set D1 : AgentTask V := T1.mark_in_progress.mark_completed v1 with hD1
  set T2 : AgentTask V := AgentTask.new id2 a2 d2 with hT2
  set D2 : AgentTask V := T2.mark_in_progress.mark_failed msg with hD2
  set c2 : AgentCoordinator V := { c with task_counter := c.task_counter + 1, tasks := dictInsert c.tasks id1 T1 } with hc2
  set c3 : AgentCoordinator V := { c2 with tasks := dictInsert (dictInsert c2.tasks id1 T1.mark_in_progress) id1 D1 } with hc3
  set c4 : AgentCoordinator V := { c3 with task_counter := c.task_counter + 2, tasks := dictInsert c3.tasks id2 T2 } with hc4
  set c5 : AgentCoordinator V := { c4 with tasks := dictInsert (dictInsert c4.tasks id2 T2.mark_in_progress) id2 D2 } with hc5
  have e1 : create_task c a1 d1 = (Except.ok id1, c2) := by
    unfold create_task
    rw [if_pos h1]
  have f1 : taskAt c2 id1 = some T1 := by
    rw [hc2]
    exact dictLookup_insert_self _ _ _
  have e2 : execute_task c2 id1 (Except.ok v1) = (Except.ok v1, c3) := by
    have := execute_task_ok_spec c2 id1 T1 v1 f1 (show T1.agent_name ∈ c2.agents from h1)
    rw [this, hc3]
  have e3 : create_task c3 a2 d2 = (Except.ok id2, c4) := by
    unfold create_task
    rw [if_pos (show a2 ∈ c3.agents from h2)]
  have f2 : taskAt c4 id2 = some T2 := by
    rw [hc4]
    exact dictLookup_insert_self _ _ _
  have e4 : execute_task c4 id2 (Except.error e) = (Except.error (PyErr.runtimeError msg e), c5) := by
    have := execute_task_err_spec c4 id2 T2 e f2 (show T2.agent_name ∈ c4.agents from h2)
    rw [this, hc5]
  have ew : execute_workflow c [⟨a1, d1, Except.ok v1⟩, ⟨a2, d2, Except.error e⟩, ⟨a3, d3, o3⟩]
      = (Except.error (PyErr.runtimeError msg e), c5) := by
    unfold execute_workflow
    rw [execute_workflow_aux_step_ok c ⟨a1, d1, Except.ok v1⟩ _ [] id1 c2 v1 c3 e1 e2]
    rw [execute_workflow_aux_step_err c3 ⟨a2, d2, Except.error e⟩ _ ([] ++ [v1]) id2 c4 (PyErr.runtimeError msg e) c5 e3 e4]
  have htasks5 : c5.tasks = dictInsert (dictInsert c.tasks id1 D1) id2 D2 := by
    rw [hc5, hc4, hc3, hc2]
    simp only [dictInsert_dictInsert]
  have l1 : taskAt c5 id1 = some D1 := by
    show dictLookup c5.tasks id1 = some D1
    rw [htasks5, dictLookup_insert_ne _ _ _ _ hne]
    exact dictLookup_insert_self _ _ _
  have l2 : taskAt c5 id2 = some D2 := by
    show dictLookup c5.tasks id2 = some D2
    rw [htasks5]
    exact dictLookup_insert_self _ _ _
  refine ⟨?_, ?_, ?_, ?_, ?_, ?_⟩
  · rw [ew]
  · rw [ew, l1]
    simp [hD1, hT1, AgentTask.new, AgentTask.mark_in_progress, AgentTask.mark_completed]
  · rw [ew, l2]
    simp [hD2, hT2, AgentTask.new, AgentTask.mark_in_progress, AgentTask.mark_failed]
  · rw [ew, hc5, hc4]
  · intro id hne1 hne2
    rw [ew]
    show dictLookup c5.tasks id = taskAt c id
    rw [htasks5, dictLookup_insert_ne _ _ _ _ hne2, dictLookup_insert_ne _ _ _ _ hne1]
    rfl
  · rw [ew]
    simp only [get_task_status, l1]
    simp [hD1, hT1, AgentTask.new, AgentTask.mark_in_progress, AgentTask.mark_completed,
      TaskStatus.value]

/-- Witness for C4: a concrete three-step workflow over three registered
agents whose second step raises produces the wrapping RuntimeError. -/
theorem c4_workflow_step2_failure_witness :
    ("p" ∈ (runOps (initCoordinator Nat) [Op.register "p", Op.register "q", Op.register "r"]).agents) ∧
    (execute_workflow (runOps (initCoordinator Nat) [Op.register "p", Op.register "q", Op.register "r"])
        [⟨"p", "s1", Except.ok 1⟩, ⟨"q", "s2", Except.error (PyErr.exception "boom")⟩, ⟨"r", "s3", Except.ok 3⟩]).1
      = Except.error (PyErr.runtimeError
          ("Task execution failed: " ++ (PyErr.exception "boom").str)
          (PyErr.exception "boom")) :=
  ⟨by decide,
    (c4_workflow_step2_failure Nat
      (runOps (initCoordinator Nat) [Op.register "p", Op.register "q", Op.register "r"])
      "p" "s1" "q" "s2" "r" "s3" 1 (PyErr.exception "boom") (Except.ok 3)
      (by decide) (by decide) (by decide)).1⟩

/-- C5: whenever a task's agent handle raises during `execute_task`, the
task is marked Failed with the formatted error string, the call raises a
RuntimeError carrying that same string with the original failure as its
cause, the Failed state is what remains in the table, and no other
task, the registry and the counter are unchanged. -/
theorem c5_handle_failure_reporting (V : Type) (c : AgentCoordinator V)
    (task_id : String) (t : AgentTask V) (e : PyErr)
    (hfind : taskAt c task_id = some t)
    (hreg : t.agent_name ∈ c.agents) :
    (execute_task c task_id (Except.error e)).1
      = Except.error (PyErr.runtimeError ("Task execution failed: " ++ e.str) e) ∧
    (taskAt (execute_task c task_id (Except.error e)).2 task_id).map
        (fun u => (u.status, u.error))
      = some (TaskStatus.failed, some ("Task execution failed: " ++ e.str)) ∧
    (∀ id2, id2 ≠ task_id →
      taskAt (execute_task c task_id (Except.error e)).2 id2 = taskAt c id2) ∧
    (execute_task c task_id (Except.error e)).2.agents = c.agents ∧
    (execute_task c task_id (Except.error e)).2.task_counter = c.task_counter := by
  have hspec := execute_task_err_spec c task_id t e hfind hreg
  refine ⟨?_, ?_, ?_, ?_, ?_⟩
  · rw [hspec]
  · rw [hspec]
    simp [taskAt, dictLookup_insert_self, AgentTask.mark_failed, AgentTask.mark_in_progress]
  · intro id2 hne
    exact execute_task_lookup_ne c task_id (Except.error e) id2 hne
  · exact execute_task_agents c task_id (Except.error e)
  · exact execute_task_counter c task_id (Except.error e)

/-- Witness for C5: a registered agent's handle raising on a fresh task
produces the wrapped RuntimeError with the formatted message. -/
theorem c5_handle_failure_reporting_witness :
    (taskAt (runOps (initCoordinator Nat) [Op.register "a", Op.create "a" "x"]) "task_0001"
      = some (AgentTask.mk "task_0001" "a" "x" TaskStatus.pending none none)) ∧
    (execute_task (runOps (initCoordinator Nat) [Op.register "a", Op.create "a" "x"])
        "task_0001" (Except.error (PyErr.exception "boom"))).1
      = Except.error (PyErr.runtimeError
          ("Task execution failed: " ++ (PyErr.exception "boom").str)
          (PyErr.exception "boom")) :=
  ⟨by decide,
    (c5_handle_failure_reporting Nat
      (runOps (initCoordinator Nat) [Op.register "a", Op.create "a" "x"])
      "task_0001" (AgentTask.mk "task_0001" "a" "x" TaskStatus.pending none none)
      (PyErr.exception "boom") (by decide) (by decide)).1⟩

/-- C6: `create_task` with an unregistered agent name raises ValueError
and returns the coordinator completely unchanged — the task table and
the counter are untouched. -/
theorem c6_unknown_agent_atomic (V : Type) (c : AgentCoordinator V) (a d : String)
    (h : a ∉ c.agents) :
    create_task c a d
      = (Except.error (PyErr.valueError ("Agent \x27" ++ a ++ "\x27 is not registered")), c) := by
  unfold create_task
  rw [if_neg h]

/-- Witness for C6: creating a task for an agent that was never
registered fails and leaves the fresh coordinator unchanged. -/
theorem c6_unknown_agent_atomic_witness :
    ("ghost" ∉ (initCoordinator Nat).agents) ∧
    create_task (initCoordinator Nat) "ghost" "x"
      = (Except.error (PyErr.valueError ("Agent \x27ghost\x27 is not registered")),
          initCoordinator Nat) :=
  ⟨by decide, c6_unknown_agent_atomic Nat (initCoordinator Nat) "ghost" "x" (by decide)⟩

/-- C7: `execute_task` on a task whose agent name is no longer in the
registry fails: the registry lookup raises a key-error-class condition,
which is surfaced to the caller as the cause of the wrapping
RuntimeError rather than being silently swallowed, and the task is
marked Failed. -/
theorem c7_unregistered_agent_keyerror (V : Type) (c : AgentCoordinator V)
    (task_id : String) (t : AgentTask V) (o : Except PyErr V)
    (hfind : taskAt c task_id = some t)
    (hunreg : t.agent_name ∉ c.agents) :
    (execute_task c task_id o).1
      = Except.error (PyErr.runtimeError
          ("Task execution failed: " ++ (PyErr.keyError t.agent_name).str)
          (PyErr.keyError t.agent_name)) ∧
    (taskAt (execute_task c task_id o).2 task_id).map (fun u => (u.status, u.error))
      = some (TaskStatus.failed,
          some ("Task execution failed: " ++ (PyErr.keyError t.agent_name).str)) := by
  have hspec := execute_task_keyerr_spec c task_id t o hfind hunreg
  constructor
  · rw [hspec]
  · rw [hspec]
    simp [taskAt, dictLookup_insert_self, AgentTask.mark_failed, AgentTask.mark_in_progress]

/-- Witness for C7: unregistering the agent after creating its task makes
`execute_task` surface the RuntimeError wrapping the KeyError. -/
theorem c7_unregistered_agent_keyerror_witness :
    (taskAt (runOps (initCoordinator Nat) [Op.register "a", Op.create "a" "x", Op.unregister "a"]) "task_0001"
      = some (AgentTask.mk "task_0001" "a" "x" TaskStatus.pending none none)) ∧
    (execute_task (runOps (initCoordinator Nat)
        [Op.register "a", Op.create "a" "x", Op.unregister "a"]) "task_0001" (Except.ok 0)).1
      = Except.error (PyErr.runtimeError
          ("Task execution failed: " ++ (PyErr.keyError "a").str)
          (PyErr.keyError "a")) :=
  ⟨by decide,
    (c7_unregistered_agent_keyerror Nat
      (runOps (initCoordinator Nat) [Op.register "a", Op.create "a" "x", Op.unregister "a"])
      "task_0001" (AgentTask.mk "task_0001" "a" "x" TaskStatus.pending none none)
      (Except.ok 0) (by decide) (by decide)).1⟩

/-- C8: in every coordinator state, the four per-status counts of
`get_workflow_summary` sum to its total task count. -/
theorem c8_summary_counts_sum (V : Type) (c : AgentCoordinator V) :
    (get_workflow_summary c).pending + (get_workflow_summary c).in_progress +
      (get_workflow_summary c).completed + (get_workflow_summary c).failed
      = (get_workflow_summary c).total_tasks := by
  have key : ∀ l : List (AgentTask V),
      l.countP (fun t => decide (t.status = TaskStatus.pending)) +
        l.countP (fun t => decide (t.status = TaskStatus.in_progress)) +
        l.countP (fun t => decide (t.status = TaskStatus.completed)) +
        l.countP (fun t => decide (t.status = TaskStatus.failed)) = l.length := by
    intro l
    induction l with
    | nil => simp
    | cons u l ih =>
        cases hu : u.status <;> simp [List.countP_cons, hu] <;> omega
  have h := key (c.tasks.map Prod.snd)
  simpa [get_workflow_summary, List.length_map] using h

/-- C9: `reset` empties the task table, returns the counter to the value
it had at construction (0), and leaves the agent registry exactly as it
was. -/
theorem c9_reset_clears_tasks_and_counter (V : Type) (c : AgentCoordinator V) :
    (reset c).tasks = [] ∧ (reset c).task_counter = 0 ∧
      (reset c).agents = c.agents ∧ (initCoordinator V).task_counter = 0 :=
  ⟨rfl, rfl, rfl, rfl⟩

/-- C10: `get_pending_tasks` applies its agent filter only when the
argument is truthy, so passing the empty string returns the pending
tasks of all agents, exactly as passing no agent name does — in every
coordinator state, including states whose tasks belong to an agent
registered under the empty-string name. -/
theorem c10_empty_agent_name_unfiltered (V : Type) (c : AgentCoordinator V) :
    get_pending_tasks c (some "") = get_pending_tasks c none := rfl

end Coord
